import Mathlib

/-!
Shallow embedding of the dashboard pipeline in `src/main.py`
(`update_dashboard` and `export_data`), for checking the repository's
specification.

Modelling conventions:
* timestamps are `Int` minutes since a fixed epoch (pandas timestamps are
  totally ordered instants; minutes suffice for the offered widths);
* every numeric sensor value is `Option ℚ` — `none` models a missing (NaN)
  cell, `some q` an exact value (pandas floats are modelled by rationals);
* durations from the `hours_delta` table are converted to minutes (`60 *`);
* bucket widths (pandas offset aliases `10T`, `30T`, `H`, `4H`, `D`) are
  `Int` minutes; `resample` anchors buckets at the start of the first day,
  and since every offered width divides one day this coincides with
  flooring to multiples of the width from the epoch, which is how
  `bucketOf` is defined.
-/

/-- One sensor reading: a timestamped sample with four numeric fields,
any of which may be missing (NaN). Mirrors one row of the dataframe
returned by `get_todays_data()`. -/
structure Reading where
  timestamp : Int
  pH : Option ℚ
  TDS : Option ℚ
  Depth : Option ℚ
  FlowInd : Option ℚ
deriving DecidableEq, Repr

/-- The four numeric parameters, in the order of the `PARAMETERS` dict in
`src/main.py`. -/
inductive Param where
  | pH | TDS | Depth | FlowInd
deriving DecidableEq, Repr

/-- The keys of `PARAMETERS`, in iteration order. -/
def PARAMS : List Param := [Param.pH, Param.TDS, Param.Depth, Param.FlowInd]

/-- Column name of a field, as in the dataframe. -/
def Param.colName : Param → String
  | .pH => "pH" | .TDS => "TDS" | .Depth => "Depth" | .FlowInd => "FlowInd"

/-- Value of a field in a reading. -/
def Reading.val (r : Reading) : Param → Option ℚ
  | .pH => r.pH | .TDS => r.TDS | .Depth => r.Depth | .FlowInd => r.FlowInd

/-- `df['timestamp'].max()`: maximum timestamp of a reading list
(only ever used on a non-empty list; `0` is a dummy for `[]`). -/
def maxTimestamp : List Reading → Int
  | [] => 0
  | [r] => r.timestamp
  | r :: s :: rest => max r.timestamp (maxTimestamp (s :: rest))

/-- `df['timestamp'].min()`: minimum timestamp of a reading list
(only ever used on a non-empty list; `0` is a dummy for `[]`). -/
def minTimestamp : List Reading → Int
  | [] => 0
  | [r] => r.timestamp
  | r :: s :: rest => min r.timestamp (minTimestamp (s :: rest))

/-- The `hours_delta` lookup of `src/main.py` lines 265-269:
`{'1H': 1, '6H': 6, '12H': 12, '1D': 24, '1W': 168}.get(time_range, 6)`. -/
def hoursDelta (time_range : String) : Int :=
  if time_range = "1H" then 1
  else if time_range = "6H" then 6
  else if time_range = "12H" then 12
  else if time_range = "1D" then 24
  else if time_range = "1W" then 168
  else 6

/-- Lines 260-269 of `src/main.py`: the window bounds `(start_time, end_time)`.
`end_time = df['timestamp'].max()`; if `time_range == 'Custom' and
custom_start and custom_end` the custom bounds are used verbatim, otherwise
`start_time = end_time - Timedelta(hours=hours_delta.get(time_range, 6))`. -/
def selectWindow (df : List Reading) (time_range : String)
    (custom_start custom_end : Option Int) : Int × Int :=
  let end_time := maxTimestamp df
  if time_range = "Custom" then
    match custom_start, custom_end with
    | some s, some e => (s, e)
    | _, _ => (end_time - 60 * hoursDelta time_range, end_time)
  else
    (end_time - 60 * hoursDelta time_range, end_time)

/-- Line 271 of `src/main.py`:
`df[df['timestamp'].between(start_time, end_time)]` — pandas `between` is
inclusive on both bounds. -/
def windowFilter (df : List Reading) (start_time end_time : Int) : List Reading :=
  df.filter (fun r => decide (start_time ≤ r.timestamp) && decide (r.timestamp ≤ end_time))

/-- The bucket (left edge) a timestamp falls into: floor of `t` to a
multiple of the width `w`. For the offered widths this is exactly the bin
`resample` assigns (its start-of-day anchor is itself a multiple of `w`). -/
def bucketOf (w t : Int) : Int := (t / w) * w

/-- The readings of `df` that fall into the bucket starting at `b`. -/
def bucketReadings (df : List Reading) (w b : Int) : List Reading :=
  df.filter (fun r => decide (bucketOf w r.timestamp = b))

/-- The non-missing values of field `f` among the readings of `df` that
fall into the bucket starting at `b` (the cells `mean` averages over). -/
def bucketVals (df : List Reading) (w b : Int) (f : Param) : List ℚ :=
  (bucketReadings df w b).filterMap (fun r => r.val f)

/-- Pandas `mean`: `none` when every cell is missing, otherwise the exact
arithmetic mean of the non-missing cells. -/
def meanOf (vals : List ℚ) : Option ℚ :=
  if vals = [] then none else some (vals.sum / vals.length)

/-- One output row of the aggregation, labelled by its bucket start
(`resample` labels bins by their left edge for these widths). -/
structure AggRow where
  timestamp : Int
  pH : Option ℚ
  TDS : Option ℚ
  Depth : Option ℚ
  FlowInd : Option ℚ
deriving DecidableEq, Repr

/-- Value of a field in an aggregated row. -/
def AggRow.val (row : AggRow) : Param → Option ℚ
  | .pH => row.pH | .TDS => row.TDS | .Depth => row.Depth | .FlowInd => row.FlowInd

/-- The aggregated row for the bucket starting at `b`. -/
def aggRowFor (df : List Reading) (w b : Int) : AggRow :=
  { timestamp := b
    pH := meanOf (bucketVals df w b .pH)
    TDS := meanOf (bucketVals df w b .TDS)
    Depth := meanOf (bucketVals df w b .Depth)
    FlowInd := meanOf (bucketVals df w b .FlowInd) }

/-- Lines 274-276 of `src/main.py`:
`df_filtered.resample(aggregation, on='timestamp').agg({param: 'mean' ...})
.reset_index()`. `resample` emits one row for EVERY bucket from the bucket
of the earliest timestamp to the bucket of the latest, at stride `w`,
whether or not any reading falls in it; the mean of an empty bucket is NaN
(`none`). On an empty frame it emits no rows. -/
def aggregate (df : List Reading) (w : Int) : List AggRow :=
  match df with
  | [] => []
  | _ :: _ =>
    let q0 := minTimestamp df / w
    let q1 := maxTimestamp df / w
    (List.range (q1 - q0 + 1).toNat).map (fun i : Nat => aggRowFor df w ((q0 + (i : Int)) * w))

/-- Two fixed decimal digits (the `dd` in `i.dd`): tens digit then units
digit of `n % 100`. -/
def twoDigits (n : Nat) : String :=
  String.mk [Nat.digitChar (n % 100 / 10), Nat.digitChar (n % 10)]

/-- Python `f"{x:.2f}"` on a (non-NaN) value: the value rounded to
hundredths, rendered with exactly two digits after the decimal point. -/
def formatFixed2 (q : ℚ) : String :=
  let c : Int := round (|q| * 100)
  (if q < 0 ∧ c ≠ 0 then "-" else "") ++ toString (c.toNat / 100) ++ "." ++ twoDigits c.toNat

/-- Python `f"{x:.2f}"` including the NaN case: `f"{float('nan'):.2f}"`
renders as `"nan"`. -/
def formatVal : Option ℚ → String
  | none => "nan"
  | some q => formatFixed2 q

/-- The `orient='split'` JSON document produced by
`df_agg.to_json(date_format='iso', orient='split')` (line 315): column
names, row index, and the cell matrix, modelled structurally. -/
structure StoredData where
  columns : List String
  index : List Nat
  data : List (Int × Option ℚ × Option ℚ × Option ℚ × Option ℚ)
deriving DecidableEq, Repr

/-- The column list of `df_agg`: the resample key then the four parameter
columns. -/
def AGG_COLUMNS : List String := "timestamp" :: PARAMS.map Param.colName

/-- `df_agg.to_json(date_format='iso', orient='split')`: serialize the
aggregated table. -/
def serializeSplit (rows : List AggRow) : StoredData :=
  { columns := AGG_COLUMNS
    index := List.range rows.length
    data := rows.map (fun r => (r.timestamp, r.pH, r.TDS, r.Depth, r.FlowInd)) }

/-- `pd.read_json(stored_data, orient='split')` (line 329): rebuild the
table from the stored document. -/
def deserializeSplit (sd : StoredData) : List AggRow :=
  sd.data.map (fun c => ⟨c.1, c.2.1, c.2.2.1, c.2.2.2.1, c.2.2.2.2⟩)

/-- Everything `update_dashboard` returns: the figure's traces (one per
selected parameter: its field and its `(x, y)` points), the table rows and
columns, the export store (`none` models the falsy `{}` placeholder), and
the four metric-card strings in `PARAMETERS` order. -/
structure DashboardOutput where
  chart : List (Param × List (Int × Option ℚ))
  table_data : List AggRow
  columns : List String
  stored : Option StoredData
  summaries : List String
deriving DecidableEq, Repr

/-- Lines 244-317 of `src/main.py`: the `update_dashboard` callback, after
the fetch/store step, as a function of the day's readings. An empty frame
short-circuits to `px.line(), [], [], {}, *['--' for _ in PARAMETERS]`
(lines 249-250); otherwise window, filter, resample-mean, build the traces,
the table, the latest-row metric cards, and the export store. -/
def update_dashboard (selected_params : List Param) (time_range : String)
    (aggregation : Int) (custom_start custom_end : Option Int)
    (readings : List Reading) : DashboardOutput :=
  match readings with
  | [] =>
    { chart := [], table_data := [], columns := [], stored := none
      summaries := PARAMS.map (fun _ => "--") }
  | r0 :: rest =>
    let df := r0 :: rest
    let se := selectWindow df time_range custom_start custom_end
    let df_filtered := windowFilter df se.1 se.2
    let df_agg := aggregate df_filtered aggregation
    let latest_row := df.getLast (List.cons_ne_nil r0 rest)
    { chart := selected_params.map
        (fun p => (p, df_agg.map (fun row => (row.timestamp, row.val p))))
      table_data := df_agg
      columns := AGG_COLUMNS
      stored := some (serializeSplit df_agg)
      summaries := PARAMS.map (fun p => formatVal (latest_row.val p)) }

/-- Lines 319-335 of `src/main.py`: the `export_data` callback.
`if not n_clicks or not stored_data: return None` (the empty-frame store
`{}` is falsy, modelled by `none`); otherwise deserialize the store and
hand the frame to the spreadsheet writer. -/
def export_data (n_clicks : Nat) (stored_data : Option StoredData) :
    Option (List AggRow) :=
  if n_clicks = 0 then none
  else match stored_data with
    | none => none
    | some sd => some (deserializeSplit sd)

/-! ## Basic lemmas about the embedded operations -/

lemma le_maxTimestamp {r : Reading} : ∀ {df : List Reading}, r ∈ df → r.timestamp ≤ maxTimestamp df := by
  intro df
  induction df with
  | nil => intro h; cases h
  | cons x rest ih =>
    intro h
    cases rest with
    | nil =>
      rcases List.mem_cons.mp h with h1 | h1
      · subst h1; simp [maxTimestamp]
      · cases h1
    | cons y ys =>
      rcases List.mem_cons.mp h with h1 | h1
      · subst h1; exact le_max_left _ _
      · exact le_trans (ih h1) (le_max_right _ _)

lemma minTimestamp_le {r : Reading} : ∀ {df : List Reading}, r ∈ df → minTimestamp df ≤ r.timestamp := by
  intro df
  induction df with
  | nil => intro h; cases h
  | cons x rest ih =>
    intro h
    cases rest with
    | nil =>
      rcases List.mem_cons.mp h with h1 | h1
      · subst h1; simp [minTimestamp]
      · cases h1
    | cons y ys =>
      rcases List.mem_cons.mp h with h1 | h1
      · subst h1; exact min_le_left _ _
      · exact le_trans (min_le_right _ _) (ih h1)

lemma maxTimestamp_mem : ∀ (x : Reading) (xs : List Reading),
    ∃ r ∈ x :: xs, r.timestamp = maxTimestamp (x :: xs) := by
  intro x xs
  induction xs generalizing x with
  | nil => exact ⟨x, List.mem_singleton_self x, rfl⟩
  | cons y ys ih =>
    rcases max_choice x.timestamp (maxTimestamp (y :: ys)) with h | h
    · exact ⟨x, List.mem_cons_self x _, by simp [maxTimestamp, h]⟩
    · obtain ⟨r, hr, hrt⟩ := ih y
      exact ⟨r, List.mem_cons_of_mem x hr, by simp [maxTimestamp, h, hrt]⟩

lemma minTimestamp_mem : ∀ (x : Reading) (xs : List Reading),
    ∃ r ∈ x :: xs, r.timestamp = minTimestamp (x :: xs) := by
  intro x xs
  induction xs generalizing x with
  | nil => exact ⟨x, List.mem_singleton_self x, rfl⟩
  | cons y ys ih =>
    rcases min_choice x.timestamp (minTimestamp (y :: ys)) with h | h
    · exact ⟨x, List.mem_cons_self x _, by simp [minTimestamp, h]⟩
    · obtain ⟨r, hr, hrt⟩ := ih y
      exact ⟨r, List.mem_cons_of_mem x hr, by simp [minTimestamp, h, hrt]⟩

lemma exists_max_reading {df : List Reading} (h : df ≠ []) :
    ∃ r ∈ df, r.timestamp = maxTimestamp df := by
  cases df with
  | nil => exact absurd rfl h
  | cons x xs => exact maxTimestamp_mem x xs

lemma exists_min_reading {df : List Reading} (h : df ≠ []) :
    ∃ r ∈ df, r.timestamp = minTimestamp df := by
  cases df with
  | nil => exact absurd rfl h
  | cons x xs => exact minTimestamp_mem x xs

lemma minTimestamp_le_maxTimestamp {df : List Reading} (h : df ≠ []) :
    minTimestamp df ≤ maxTimestamp df := by
  cases df with
  | nil => exact absurd rfl h
  | cons x xs =>
    obtain ⟨r, hr, hrt⟩ := minTimestamp_mem x xs
    exact hrt ▸ le_maxTimestamp hr

lemma bucketOf_le {w : Int} (hw : 0 < w) (t : Int) : bucketOf w t ≤ t := by
  have h1 := Int.ediv_add_emod t w
  have h2 := Int.emod_nonneg t (ne_of_gt hw)
  unfold bucketOf
  nlinarith [h1, h2]

lemma lt_bucketOf_add {w : Int} (hw : 0 < w) (t : Int) : t < bucketOf w t + w := by
  have h1 := Int.ediv_add_emod t w
  have h2 := Int.emod_lt_of_pos t hw
  unfold bucketOf
  nlinarith [h1, h2]

lemma bucketOf_mono {w : Int} (hw : 0 < w) {a b : Int} (h : a ≤ b) :
    a / w ≤ b / w := Int.ediv_le_ediv hw h

lemma bucketOf_mul {w : Int} (hw : w ≠ 0) (k : Int) : bucketOf w (k * w) = k * w := by
  unfold bucketOf
  rw [Int.mul_ediv_cancel k hw]

lemma bucketOf_eq_qw (w t : Int) : bucketOf w t = (t / w) * w := rfl

lemma mem_bucketReadings {df : List Reading} {w b : Int} {r : Reading} :
    r ∈ bucketReadings df w b ↔ r ∈ df ∧ bucketOf w r.timestamp = b := by
  simp [bucketReadings, List.mem_filter]

lemma mem_windowFilter {df : List Reading} {s e : Int} {r : Reading} :
    r ∈ windowFilter df s e ↔ r ∈ df ∧ s ≤ r.timestamp ∧ r.timestamp ≤ e := by
  simp [windowFilter, List.mem_filter]

lemma meanOf_getD_mul (vals : List ℚ) :
    (meanOf vals).getD 0 * (vals.length : ℚ) = vals.sum := by
  unfold meanOf
  by_cases h : vals = []
  · simp [h]
  · have hlen0 : vals.length ≠ 0 := fun h0 => h (List.length_eq_zero.mp h0)
    have hlen : (vals.length : ℚ) ≠ 0 := Nat.cast_ne_zero.mpr hlen0
    simp only [h, if_false, Option.getD_some]
    field_simp

lemma aggRowFor_val (df : List Reading) (w b : Int) (f : Param) :
    (aggRowFor df w b).val f = meanOf (bucketVals df w b f) := by
  cases f <;> rfl

lemma aggRowFor_timestamp (df : List Reading) (w b : Int) :
    (aggRowFor df w b).timestamp = b := rfl

lemma aggregate_eq_of_ne_nil {df : List Reading} (h : df ≠ []) (w : Int) :
    aggregate df w =
      (List.range ((maxTimestamp df / w) - (minTimestamp df / w) + 1).toNat).map
        (fun i : Nat => aggRowFor df w ((minTimestamp df / w + (i : Int)) * w)) := by
  cases df with
  | nil => exact absurd rfl h
  | cons x xs => rfl

lemma bucketVals_cons (r : Reading) (df : List Reading) (w b : Int) (f : Param) :
    bucketVals (r :: df) w b f =
      (if bucketOf w r.timestamp = b then (r.val f).toList else []) ++ bucketVals df w b f := by
  unfold bucketVals bucketReadings
  by_cases h : bucketOf w r.timestamp = b
  · simp only [h, if_pos, List.filter_cons, decide_eq_true_eq, if_true]
    rw [List.filterMap_cons]
    cases hv : r.val f <;> simp [hv]
  · simp [List.filter_cons, h]

lemma sum_map_ite_eq {keys : List Int} (hnd : keys.Nodup) {k0 : Int} (hk : k0 ∈ keys)
    (v : ℚ) (g : Int → ℚ) :
    (keys.map (fun b => if b = k0 then v + g b else g b)).sum = v + (keys.map g).sum := by
  induction keys with
  | nil => cases hk
  | cons k ks ih =>
    rcases List.mem_cons.mp hk with h1 | h1
    · subst h1
      have hnot : ∀ b ∈ ks, b ≠ k0 := fun b hb hbe =>
        (List.nodup_cons.mp hnd).1 (hbe ▸ hb)
      have hmap : ks.map (fun b => if b = k0 then v + g b else g b) = ks.map g :=
        List.map_congr_left (fun b hb => if_neg (hnot b hb))
      simp only [List.map_cons, List.sum_cons, eq_self_iff_true, if_true, hmap]
      ring
    · have hk0 : k ≠ k0 := fun hke =>
        (List.nodup_cons.mp hnd).1 (hke ▸ h1)
      have := ih (List.nodup_cons.mp hnd).2 h1
      simp only [List.map_cons, List.sum_cons, if_neg hk0, this]
      ring

lemma sum_bucketVals_partition (f : Param) (w : Int) :
    ∀ (df : List Reading) (keys : List Int), keys.Nodup →
      (∀ r ∈ df, bucketOf w r.timestamp ∈ keys) →
      (keys.map (fun b => (bucketVals df w b f).sum)).sum
        = (df.filterMap (fun r => r.val f)).sum := by
  intro df
  induction df with
  | nil =>
    intro keys _ _
    simp [bucketVals, bucketReadings]
  | cons r rest ih =>
    intro keys hnd hcov
    have hcov' : ∀ x ∈ rest, bucketOf w x.timestamp ∈ keys :=
      fun x hx => hcov x (List.mem_cons_of_mem r hx)
    have hrk : bucketOf w r.timestamp ∈ keys := hcov r (List.mem_cons_self r rest)
    cases hv : r.val f with
    | none =>
      have hmap : keys.map (fun b => (bucketVals (r :: rest) w b f).sum)
          = keys.map (fun b => (bucketVals rest w b f).sum) := by
        refine List.map_congr_left (fun b _ => ?_)
        rw [bucketVals_cons]
        by_cases hb : bucketOf w r.timestamp = b <;> simp [hb, hv]
      rw [hmap, ih keys hnd hcov', List.filterMap_cons, hv]
    | some v =>
      have hmap : keys.map (fun b => (bucketVals (r :: rest) w b f).sum)
          = keys.map (fun b => if b = bucketOf w r.timestamp
              then v + (bucketVals rest w b f).sum else (bucketVals rest w b f).sum) := by
        refine List.map_congr_left (fun b _ => ?_)
        rw [bucketVals_cons]
        by_cases hb : bucketOf w r.timestamp = b
        · simp [hb, hv]
        · rw [if_neg hb, if_neg (fun hbe : b = bucketOf w r.timestamp => hb hbe.symm)]
          simp
      rw [hmap, sum_map_ite_eq hnd hrk v (fun b => (bucketVals rest w b f).sum),
        ih keys hnd hcov', List.filterMap_cons, hv, List.sum_cons]

lemma bucketList_nodup (w : Int) (hw : w ≠ 0) (q0 : Int) (n : Nat) :
    ((List.range n).map (fun i : Nat => (q0 + (i : Int)) * w)).Nodup := by
  refine List.Nodup.map ?_ (List.nodup_range n)
  intro i j hij
  have h := mul_right_cancel₀ hw hij
  omega

lemma bucketOf_mem_bucketList {df : List Reading} {w : Int} (hw : 0 < w)
    {r : Reading} (hr : r ∈ df) :
    bucketOf w r.timestamp ∈
      (List.range ((maxTimestamp df / w) - (minTimestamp df / w) + 1).toNat).map
        (fun i : Nat => (minTimestamp df / w + (i : Int)) * w) := by
  have h0 : minTimestamp df / w ≤ r.timestamp / w :=
    Int.ediv_le_ediv hw (minTimestamp_le hr)
  have h1 : r.timestamp / w ≤ maxTimestamp df / w :=
    Int.ediv_le_ediv hw (le_maxTimestamp hr)
  refine List.mem_map.mpr ⟨(r.timestamp / w - minTimestamp df / w).toNat,
    List.mem_range.mpr (by omega), ?_⟩
  have hq : minTimestamp df / w + ((r.timestamp / w - minTimestamp df / w).toNat : Int)
      = r.timestamp / w := by omega
  rw [hq]
  rfl

/-- C1: for every non-empty windowed Reading sequence and every positive bucket
width, for each numeric field, the sum over all aggregated rows of
(the row's mean for that field, taken as 0 when missing, times the number of
readings in that row's bucket with a non-missing value for that field) equals
the sum of that field's non-missing values in the input. -/
theorem C1_mean_correctness (df : List Reading) (w : Int) (hw : 0 < w) (hne : df ≠ [])
    (f : Param) :
    ((aggregate df w).map
        (fun row => (row.val f).getD 0 * ((bucketVals df w row.timestamp f).length : ℚ))).sum
      = (df.filterMap (fun r => r.val f)).sum := by
  rw [aggregate_eq_of_ne_nil hne w, List.map_map]
  have hstep : (List.range ((maxTimestamp df / w) - (minTimestamp df / w) + 1).toNat).map
      ((fun row => (row.val f).getD 0 * ((bucketVals df w row.timestamp f).length : ℚ)) ∘
        (fun i : Nat => aggRowFor df w ((minTimestamp df / w + (i : Int)) * w)))
      = ((List.range ((maxTimestamp df / w) - (minTimestamp df / w) + 1).toNat).map
          (fun i : Nat => (minTimestamp df / w + (i : Int)) * w)).map
        (fun b => (bucketVals df w b f).sum) := by
    rw [List.map_map]
    refine List.map_congr_left (fun i _ => ?_)
    simp only [Function.comp_apply, aggRowFor_val, aggRowFor_timestamp]
    exact meanOf_getD_mul _
  rw [hstep]
  exact sum_bucketVals_partition f w df _
    (bucketList_nodup w (ne_of_gt hw) _ _)
    (fun r hr => bucketOf_mem_bucketList hw hr)

/-- Witness for C1 at the concrete input
`[(t=0, pH=1), (t=25, pH=2)]` with bucket width 10 and field pH. -/
theorem C1_mean_correctness_witness :
    (0 : Int) < 10 ∧
    ([⟨0, some 1, none, none, none⟩, ⟨25, some 2, none, none, none⟩] : List Reading) ≠ [] ∧
    ((aggregate [⟨0, some 1, none, none, none⟩, ⟨25, some 2, none, none, none⟩] 10).map
        (fun row => (row.val Param.pH).getD 0 *
          ((bucketVals [⟨0, some 1, none, none, none⟩, ⟨25, some 2, none, none, none⟩]
              10 row.timestamp Param.pH).length : ℚ))).sum
      = (([⟨0, some 1, none, none, none⟩, ⟨25, some 2, none, none, none⟩] : List Reading).filterMap
          (fun r => r.val Param.pH)).sum :=
  ⟨by decide, by decide,
    C1_mean_correctness [⟨0, some 1, none, none, none⟩, ⟨25, some 2, none, none, none⟩]
      10 (by decide) (by decide) Param.pH⟩

/-- C5: every aggregated row's bucket start is a multiple of the bucket width
(measured from the fixed epoch anchor), and the rows appear in strictly
ascending bucket-start order with no duplicate bucket starts. -/
theorem C5_bucket_alignment (df : List Reading) (w : Int) (hw : 0 < w) :
    (∀ row ∈ aggregate df w, w ∣ row.timestamp) ∧
    (aggregate df w).Pairwise (fun a b => a.timestamp < b.timestamp) ∧
    ((aggregate df w).map AggRow.timestamp).Nodup := by
  cases df with
  | nil => simp [aggregate]
  | cons x xs =>
    rw [aggregate_eq_of_ne_nil (List.cons_ne_nil x xs) w]
    refine ⟨?_, ?_, ?_⟩
    · intro row hrow
      obtain ⟨i, _, hmap⟩ := List.mem_map.mp hrow
      rw [← hmap, aggRowFor_timestamp]
      exact dvd_mul_left w _
    · refine List.Pairwise.map _ ?_ (List.pairwise_lt_range _)
      intro i j hij
      simp only [aggRowFor_timestamp]
      exact mul_lt_mul_of_pos_right (by omega) hw
    · rw [List.map_map]
      exact bucketList_nodup w (ne_of_gt hw) _ _

/-- Witness for C5 at the concrete input `[(t=0, pH=1), (t=25, pH=2)]`,
width 10. -/
theorem C5_bucket_alignment_witness :
    (0 : Int) < 10 ∧
    ((∀ row ∈ aggregate [⟨0, some 1, none, none, none⟩, ⟨25, some 2, none, none, none⟩] 10,
        (10 : Int) ∣ row.timestamp) ∧
      (aggregate [⟨0, some 1, none, none, none⟩, ⟨25, some 2, none, none, none⟩] 10).Pairwise
        (fun a b => a.timestamp < b.timestamp) ∧
      ((aggregate [⟨0, some 1, none, none, none⟩, ⟨25, some 2, none, none, none⟩] 10).map
          AggRow.timestamp).Nodup) :=
  ⟨by decide,
    C5_bucket_alignment [⟨0, some 1, none, none, none⟩, ⟨25, some 2, none, none, none⟩]
      10 (by decide)⟩

/-- C2 (counterexample): on the input `[(t=0, pH=1), (t=25, pH=2)]` with bucket
width 10, the aggregation outputs a row for the bucket starting at 10 even
though no reading falls in it — a bucket with zero readings DOES contribute a
(NaN-filled) row, refuting the claim as stated. -/
theorem C2_counterexample :
    ∃ row ∈ aggregate [⟨0, some 1, none, none, none⟩, ⟨25, some 2, none, none, none⟩] 10,
      bucketReadings [⟨0, some 1, none, none, none⟩, ⟨25, some 2, none, none, none⟩]
        10 row.timestamp = [] := by
  decide

/-- C2 (amended): `resample` DOES emit rows for buckets with zero readings:
every width-aligned bucket from the bucket of the earliest reading to the
bucket of the latest gets a row — in particular each empty bucket strictly
between the occupied extremes — and a row whose bucket holds zero readings is
NaN-filled (every field missing, never zero-filled) and lies strictly between
those extremes; the bucket of every reading appears in the output. -/
theorem C2_amended_empty_buckets (df : List Reading) (w : Int) (hw : 0 < w)
    (hne : df ≠ []) :
    (∀ row ∈ aggregate df w, bucketReadings df w row.timestamp = [] →
      (row.pH = none ∧ row.TDS = none ∧ row.Depth = none ∧ row.FlowInd = none) ∧
      bucketOf w (minTimestamp df) < row.timestamp ∧
      row.timestamp < bucketOf w (maxTimestamp df)) ∧
    (∀ r ∈ df, ∃ row ∈ aggregate df w, row.timestamp = bucketOf w r.timestamp) ∧
    (∀ b : Int, w ∣ b → bucketOf w (minTimestamp df) ≤ b →
      b ≤ bucketOf w (maxTimestamp df) → ∃ row ∈ aggregate df w, row.timestamp = b) := by
  refine ⟨?_, ?_, ?_⟩
  · intro row hrow hempty
    rw [aggregate_eq_of_ne_nil hne w] at hrow
    obtain ⟨i, hi, hmap⟩ := List.mem_map.mp hrow
    have hts : row.timestamp = (minTimestamp df / w + (i : Int)) * w := by
      rw [← hmap, aggRowFor_timestamp]
    have hvals : ∀ f : Param, bucketVals df w row.timestamp f = [] := by
      intro f
      unfold bucketVals
      rw [hempty]
      rfl
    refine ⟨?_, ?_, ?_⟩
    · have hpH := hvals Param.pH
      have hTDS := hvals Param.TDS
      have hDepth := hvals Param.Depth
      have hFlow := hvals Param.FlowInd
      rw [← hmap] at hpH hTDS hDepth hFlow ⊢
      rw [aggRowFor_timestamp] at hpH hTDS hDepth hFlow
      unfold aggRowFor
      simp only []
      rw [hpH, hTDS, hDepth, hFlow]
      exact ⟨rfl, rfl, rfl, rfl⟩
    · obtain ⟨rmin, hrmin, hrmint⟩ := exists_min_reading hne
      have hble : bucketOf w (minTimestamp df) ≤ row.timestamp := by
        rw [hts]
        unfold bucketOf
        exact mul_le_mul_of_nonneg_right (by omega) (le_of_lt hw)
      rcases lt_or_eq_of_le hble with h | h
      · exact h
      · exfalso
        have : rmin ∈ bucketReadings df w row.timestamp := by
          rw [mem_bucketReadings]
          exact ⟨hrmin, by rw [hrmint, ← h]⟩
        rw [hempty] at this
        cases this
    · obtain ⟨rmax, hrmax, hrmaxt⟩ := exists_max_reading hne
      have hq : (i : Int) ≤ maxTimestamp df / w - minTimestamp df / w := by
        have := List.mem_range.mp hi
        omega
      have hble : row.timestamp ≤ bucketOf w (maxTimestamp df) := by
        rw [hts]
        unfold bucketOf
        exact mul_le_mul_of_nonneg_right (by omega) (le_of_lt hw)
      rcases lt_or_eq_of_le hble with h | h
      · exact h
      · exfalso
        have : rmax ∈ bucketReadings df w row.timestamp := by
          rw [mem_bucketReadings]
          exact ⟨hrmax, by rw [hrmaxt, h]⟩
        rw [hempty] at this
        cases this
  · intro r hr
    have hmem := bucketOf_mem_bucketList hw hr
    obtain ⟨i, hi, hgi⟩ := List.mem_map.mp hmem
    refine ⟨aggRowFor df w ((minTimestamp df / w + (i : Int)) * w), ?_, ?_⟩
    · rw [aggregate_eq_of_ne_nil hne w]
      exact List.mem_map.mpr ⟨i, hi, rfl⟩
    · rw [aggRowFor_timestamp, hgi]
  · intro b hdvd hlo hhi
    obtain ⟨k, hk⟩ := hdvd
    subst hk
    unfold bucketOf at hlo hhi
    rw [mul_comm w k] at hlo hhi
    have hq0 : minTimestamp df / w ≤ k := le_of_mul_le_mul_right hlo hw
    have hq1 : k ≤ maxTimestamp df / w := le_of_mul_le_mul_right hhi hw
    refine ⟨aggRowFor df w
        ((minTimestamp df / w + ((k - minTimestamp df / w).toNat : Int)) * w), ?_, ?_⟩
    · rw [aggregate_eq_of_ne_nil hne w]
      exact List.mem_map.mpr ⟨(k - minTimestamp df / w).toNat,
        List.mem_range.mpr (by omega), rfl⟩
    · rw [aggRowFor_timestamp]
      have hkk : minTimestamp df / w + ((k - minTimestamp df / w).toNat : Int) = k := by
        omega
      rw [hkk]
      exact mul_comm k w

/-- Witness for the amended C2 at the concrete input
`[(t=0, pH=1), (t=25, pH=2)]`, width 10 (the bucket at 10 is empty,
NaN-filled, and strictly between the occupied buckets 0 and 20). -/
theorem C2_amended_empty_buckets_witness :
    (0 : Int) < 10 ∧
    ([⟨0, some 1, none, none, none⟩, ⟨25, some 2, none, none, none⟩] : List Reading) ≠ [] ∧
    ((∀ row ∈ aggregate [⟨0, some 1, none, none, none⟩, ⟨25, some 2, none, none, none⟩] 10,
        bucketReadings [⟨0, some 1, none, none, none⟩, ⟨25, some 2, none, none, none⟩]
          10 row.timestamp = [] →
        (row.pH = none ∧ row.TDS = none ∧ row.Depth = none ∧ row.FlowInd = none) ∧
        bucketOf 10 (minTimestamp [⟨0, some 1, none, none, none⟩, ⟨25, some 2, none, none, none⟩])
          < row.timestamp ∧
        row.timestamp <
          bucketOf 10 (maxTimestamp [⟨0, some 1, none, none, none⟩, ⟨25, some 2, none, none, none⟩])) ∧
      (∀ r ∈ ([⟨0, some 1, none, none, none⟩, ⟨25, some 2, none, none, none⟩] : List Reading),
        ∃ row ∈ aggregate [⟨0, some 1, none, none, none⟩, ⟨25, some 2, none, none, none⟩] 10,
          row.timestamp = bucketOf 10 r.timestamp) ∧
      (∀ b : Int, (10 : Int) ∣ b →
        bucketOf 10 (minTimestamp
            [⟨0, some 1, none, none, none⟩, ⟨25, some 2, none, none, none⟩]) ≤ b →
        b ≤ bucketOf 10 (maxTimestamp
            [⟨0, some 1, none, none, none⟩, ⟨25, some 2, none, none, none⟩]) →
        ∃ row ∈ aggregate [⟨0, some 1, none, none, none⟩, ⟨25, some 2, none, none, none⟩] 10,
          row.timestamp = b)) :=
  ⟨by decide, by decide,
    C2_amended_empty_buckets [⟨0, some 1, none, none, none⟩, ⟨25, some 2, none, none, none⟩]
      10 (by decide) (by decide)⟩

/-- C3 (counterexample): with readings `[(t=0, pH=7)]`, range "Custom",
`custom_start = 0` and `custom_end` missing, the claim says the windowed set
is empty and aggregation yields zero rows; the code instead falls into the
default branch and produces one aggregated row and a non-empty windowed set. -/
theorem C3_counterexample :
    (update_dashboard [Param.pH] "Custom" 10 (some 0) none
        [⟨0, some 7, none, none, none⟩]).table_data ≠ [] ∧
    windowFilter [⟨0, some 7, none, none, none⟩]
        (selectWindow [⟨0, some 7, none, none, none⟩] "Custom" (some 0) none).1
        (selectWindow [⟨0, some 7, none, none, none⟩] "Custom" (some 0) none).2 ≠ [] := by
  decide

/-- C3 (amended): when range "Custom" is selected with either custom bound
missing, the `time_range == 'Custom' and custom_start and custom_end`
condition fails, so the code falls back to the default window — end = max
timestamp, start = end − 6 hours (the table default, since "Custom" is not a
key of `hours_delta`); no exception is raised, and for non-empty readings the
windowed set is NOT empty: it contains the latest reading. -/
theorem C3_amended_missing_bound (df : List Reading) (cs ce : Option Int)
    (hne : df ≠ []) (hmiss : cs = none ∨ ce = none) :
    selectWindow df "Custom" cs ce = (maxTimestamp df - 360, maxTimestamp df) ∧
    ∃ r ∈ windowFilter df (maxTimestamp df - 360) (maxTimestamp df),
      r.timestamp = maxTimestamp df := by
  constructor
  · unfold selectWindow
    rw [if_pos rfl]
    rcases hmiss with h | h
    · subst h
      cases ce <;> rfl
    · subst h
      cases cs <;> rfl
  · obtain ⟨r, hr, hrt⟩ := exists_max_reading hne
    exact ⟨r, mem_windowFilter.mpr ⟨hr, by omega, by omega⟩, hrt⟩

/-- Witness for the amended C3 at readings `[(t=0, pH=7)]`,
`custom_start = 0`, `custom_end` missing. -/
theorem C3_amended_missing_bound_witness :
    ([⟨0, some 7, none, none, none⟩] : List Reading) ≠ [] ∧
    ((some 0 : Option Int) = none ∨ (none : Option Int) = none) ∧
    (selectWindow [⟨0, some 7, none, none, none⟩] "Custom" (some 0) none
        = (maxTimestamp [⟨0, some 7, none, none, none⟩] - 360,
           maxTimestamp [⟨0, some 7, none, none, none⟩]) ∧
      ∃ r ∈ windowFilter [⟨0, some 7, none, none, none⟩]
          (maxTimestamp [⟨0, some 7, none, none, none⟩] - 360)
          (maxTimestamp [⟨0, some 7, none, none, none⟩]),
        r.timestamp = maxTimestamp [⟨0, some 7, none, none, none⟩]) :=
  ⟨by decide, Or.inr rfl,
    C3_amended_missing_bound [⟨0, some 7, none, none, none⟩] (some 0) none
      (by decide) (Or.inr rfl)⟩

/-- C4: for non-empty readings and any non-"Custom" range, the window end is
the maximum reading timestamp (an upper bound that is attained), the start is
end minus the tabulated duration in minutes
(1H→1h, 6H→6h, 12H→12h, 1D→24h, 1W→168h, anything else→6h), and a reading
passes the filter iff start ≤ timestamp ≤ end, both bounds inclusive. -/
theorem C4_default_window (df : List Reading) (time_range : String)
    (cs ce : Option Int) (hne : df ≠ []) (hcustom : time_range ≠ "Custom") :
    (selectWindow df time_range cs ce).2 = maxTimestamp df ∧
    (∀ r ∈ df, r.timestamp ≤ (selectWindow df time_range cs ce).2) ∧
    (∃ r ∈ df, r.timestamp = (selectWindow df time_range cs ce).2) ∧
    (selectWindow df time_range cs ce).1
      = (selectWindow df time_range cs ce).2 - 60 * hoursDelta time_range ∧
    hoursDelta "1H" = 1 ∧ hoursDelta "6H" = 6 ∧ hoursDelta "12H" = 12 ∧
    hoursDelta "1D" = 24 ∧ hoursDelta "1W" = 168 ∧
    (time_range ∉ ["1H", "6H", "12H", "1D", "1W"] → hoursDelta time_range = 6) ∧
    (∀ r, r ∈ windowFilter df (selectWindow df time_range cs ce).1
        (selectWindow df time_range cs ce).2 ↔
      r ∈ df ∧ (selectWindow df time_range cs ce).1 ≤ r.timestamp ∧
        r.timestamp ≤ (selectWindow df time_range cs ce).2) := by
  have hsel : selectWindow df time_range cs ce
      = (maxTimestamp df - 60 * hoursDelta time_range, maxTimestamp df) := by
    unfold selectWindow
    rw [if_neg hcustom]
  rw [hsel]
  refine ⟨rfl, fun r hr => le_maxTimestamp hr, exists_max_reading hne, rfl,
    rfl, rfl, rfl, rfl, rfl, ?_, fun r => mem_windowFilter⟩
  intro hnotin
  simp only [List.mem_cons, List.not_mem_nil, or_false, not_or] at hnotin
  obtain ⟨h1, h2, h3, h4, h5⟩ := hnotin
  simp [hoursDelta, h1, h2, h3, h4, h5]

/-- Witness for C4 at readings `[(t=1000, pH=1)]` with range "1D". -/
theorem C4_default_window_witness :
    ([⟨1000, some 1, none, none, none⟩] : List Reading) ≠ [] ∧ ("1D" : String) ≠ "Custom" ∧
    ((selectWindow [⟨1000, some 1, none, none, none⟩] "1D" none none).2
        = maxTimestamp [⟨1000, some 1, none, none, none⟩] ∧
      (∀ r ∈ ([⟨1000, some 1, none, none, none⟩] : List Reading),
        r.timestamp ≤ (selectWindow [⟨1000, some 1, none, none, none⟩] "1D" none none).2) ∧
      (∃ r ∈ ([⟨1000, some 1, none, none, none⟩] : List Reading),
        r.timestamp = (selectWindow [⟨1000, some 1, none, none, none⟩] "1D" none none).2) ∧
      (selectWindow [⟨1000, some 1, none, none, none⟩] "1D" none none).1
        = (selectWindow [⟨1000, some 1, none, none, none⟩] "1D" none none).2
            - 60 * hoursDelta "1D" ∧
      hoursDelta "1H" = 1 ∧ hoursDelta "6H" = 6 ∧ hoursDelta "12H" = 12 ∧
      hoursDelta "1D" = 24 ∧ hoursDelta "1W" = 168 ∧
      (("1D" : String) ∉ ["1H", "6H", "12H", "1D", "1W"] → hoursDelta "1D" = 6) ∧
      (∀ r, r ∈ windowFilter [⟨1000, some 1, none, none, none⟩]
          (selectWindow [⟨1000, some 1, none, none, none⟩] "1D" none none).1
          (selectWindow [⟨1000, some 1, none, none, none⟩] "1D" none none).2 ↔
        r ∈ ([⟨1000, some 1, none, none, none⟩] : List Reading) ∧
          (selectWindow [⟨1000, some 1, none, none, none⟩] "1D" none none).1 ≤ r.timestamp ∧
          r.timestamp ≤ (selectWindow [⟨1000, some 1, none, none, none⟩] "1D" none none).2)) :=
  ⟨by decide, by decide,
    C4_default_window [⟨1000, some 1, none, none, none⟩] "1D" none none
      (by decide) (by decide)⟩

/-- C6: an empty reading sequence short-circuits the whole pipeline before
any window computation: empty chart (zero traces), empty table (zero rows and
zero columns), empty export store, and all four summary cards show "--". -/
theorem C6_empty_short_circuit (ps : List Param) (tr : String) (agg : Int)
    (cs ce : Option Int) :
    update_dashboard ps tr agg cs ce [] =
      { chart := [], table_data := [], columns := [], stored := none
        summaries := ["--", "--", "--", "--"] } := rfl

/-- C7: with range "Custom" and both bounds present, the window is the custom
bounds verbatim (no validation); if start > end the windowed subsequence is
empty and aggregation yields zero rows (and, the embedding being total, no
error is raised). -/
theorem C7_custom_inverted_range (df : List Reading) (w : Int) (s e : Int)
    (hgt : e < s) :
    selectWindow df "Custom" (some s) (some e) = (s, e) ∧
    windowFilter df s e = [] ∧
    aggregate (windowFilter df s e) w = [] := by
  have hwf : windowFilter df s e = [] := by
    unfold windowFilter
    rw [List.filter_eq_nil_iff]
    intro r hr
    simp only [Bool.and_eq_true, decide_eq_true_eq, not_and]
    intro h1 h2
    omega
  refine ⟨?_, hwf, by rw [hwf]; rfl⟩
  unfold selectWindow
  rw [if_pos rfl]

/-- Witness for C7: readings `[(t=4, pH=1)]`, custom start 5, custom end 3. -/
theorem C7_custom_inverted_range_witness :
    (3 : Int) < 5 ∧
    (selectWindow [⟨4, some 1, none, none, none⟩] "Custom" (some 5) (some 3) = (5, 3) ∧
      windowFilter [⟨4, some 1, none, none, none⟩] 5 3 = [] ∧
      aggregate (windowFilter [⟨4, some 1, none, none, none⟩] 5 3) 10 = []) :=
  ⟨by decide,
    C7_custom_inverted_range [⟨4, some 1, none, none, none⟩] 10 5 3 (by decide)⟩

lemma update_dashboard_summaries {readings : List Reading} {last : Reading}
    (hlast : readings.getLast? = some last) (ps : List Param) (tr : String)
    (agg : Int) (cs ce : Option Int) :
    (update_dashboard ps tr agg cs ce readings).summaries
      = PARAMS.map (fun p => formatVal (last.val p)) := by
  cases readings with
  | nil => cases hlast
  | cons r0 rest =>
    have h1 : (r0 :: rest).getLast (List.cons_ne_nil r0 rest) = last := by
      rw [List.getLast?_eq_getLast (r0 :: rest) (List.cons_ne_nil r0 rest)] at hlast
      exact Option.some.inj hlast
    simp only [update_dashboard, h1]

lemma last_ge_of_sorted {readings : List Reading} {last : Reading}
    (hlast : readings.getLast? = some last)
    (hsorted : readings.Pairwise (fun a b => a.timestamp ≤ b.timestamp)) :
    ∀ r ∈ readings, r.timestamp ≤ last.timestamp := by
  induction readings with
  | nil => intro r hr; cases hr
  | cons x xs ih =>
    intro r hr
    cases xs with
    | nil =>
      have hx : x = last := by
        simpa [List.getLast?] using hlast
      rcases List.mem_cons.mp hr with h | h
      · rw [h, hx]
      · cases h
    | cons y ys =>
      have hlast' : (y :: ys).getLast? = some last := by
        rw [← List.getLast?_cons_cons]
        exact hlast
      rcases List.mem_cons.mp hr with h | h
      · subst h
        have hmem : last ∈ y :: ys := List.mem_of_mem_getLast? (by rw [hlast']; rfl)
        exact (List.pairwise_cons.mp hsorted).1 last hmem
      · exact ih hlast' (List.pairwise_cons.mp hsorted).2 r h

lemma update_dashboard_stored_eq {readings : List Reading} (hne : readings ≠ [])
    (ps : List Param) (tr : String) (agg : Int) (cs ce : Option Int) :
    (update_dashboard ps tr agg cs ce readings).stored
      = some (serializeSplit (update_dashboard ps tr agg cs ce readings).table_data) := by
  cases readings with
  | nil => exact absurd rfl hne
  | cons r0 rest => rfl

/-- C8: the four metric-card summaries are computed from the single
most-recent reading of the full, unwindowed sequence — the last row, whose
timestamp (under the store's sorted-order contract) dominates every reading —
independently of the selected range, aggregation width and custom bounds;
each non-missing value is rendered by `formatFixed2` with exactly two digits
after the decimal point; and no rounding touches the aggregated rows or the
export store, which keeps the aggregated table verbatim. -/
theorem C8_latest_summary (readings : List Reading) (last : Reading)
    (hlast : readings.getLast? = some last)
    (hsorted : readings.Pairwise (fun a b => a.timestamp ≤ b.timestamp)) :
    (∀ r ∈ readings, r.timestamp ≤ last.timestamp) ∧
    (∀ (ps : List Param) (tr : String) (agg : Int) (cs ce : Option Int),
      (update_dashboard ps tr agg cs ce readings).summaries
        = PARAMS.map (fun p => formatVal (last.val p)) ∧
      (update_dashboard ps tr agg cs ce readings).stored
        = some (serializeSplit (update_dashboard ps tr agg cs ce readings).table_data)) ∧
    (∀ q : ℚ, ∃ pre : String,
      formatFixed2 q = pre ++ "." ++ twoDigits (round (|q| * 100)).toNat ∧
      (twoDigits (round (|q| * 100)).toNat).length = 2) := by
  have hne : readings ≠ [] := by
    cases readings with
    | nil => cases hlast
    | cons x xs => exact List.cons_ne_nil x xs
  refine ⟨last_ge_of_sorted hlast hsorted, ?_, ?_⟩
  · intro ps tr agg cs ce
    exact ⟨update_dashboard_summaries hlast ps tr agg cs ce,
      update_dashboard_stored_eq hne ps tr agg cs ce⟩
  · intro q
    exact ⟨(if q < 0 ∧ round (|q| * 100) ≠ 0 then "-" else "")
        ++ toString ((round (|q| * 100)).toNat / 100), rfl, rfl⟩

/-- Witness for C8 at readings `[(t=0, pH=1), (t=5, pH=2)]`
(sorted, last row `(t=5, pH=2)`). -/
theorem C8_latest_summary_witness :
    ([⟨0, some 1, none, none, none⟩, ⟨5, some 2, none, none, none⟩] : List Reading).getLast?
        = some ⟨5, some 2, none, none, none⟩ ∧
    ([⟨0, some 1, none, none, none⟩, ⟨5, some 2, none, none, none⟩] : List Reading).Pairwise
        (fun a b => a.timestamp ≤ b.timestamp) ∧
    ((∀ r ∈ ([⟨0, some 1, none, none, none⟩, ⟨5, some 2, none, none, none⟩] : List Reading),
        r.timestamp ≤ (⟨5, some 2, none, none, none⟩ : Reading).timestamp) ∧
      (∀ (ps : List Param) (tr : String) (agg : Int) (cs ce : Option Int),
        (update_dashboard ps tr agg cs ce
            [⟨0, some 1, none, none, none⟩, ⟨5, some 2, none, none, none⟩]).summaries
          = PARAMS.map (fun p => formatVal ((⟨5, some 2, none, none, none⟩ : Reading).val p)) ∧
        (update_dashboard ps tr agg cs ce
            [⟨0, some 1, none, none, none⟩, ⟨5, some 2, none, none, none⟩]).stored
          = some (serializeSplit (update_dashboard ps tr agg cs ce
              [⟨0, some 1, none, none, none⟩, ⟨5, some 2, none, none, none⟩]).table_data)) ∧
      (∀ q : ℚ, ∃ pre : String,
        formatFixed2 q = pre ++ "." ++ twoDigits (round (|q| * 100)).toNat ∧
        (twoDigits (round (|q| * 100)).toNat).length = 2)) :=
  ⟨by decide, by decide,
    C8_latest_summary [⟨0, some 1, none, none, none⟩, ⟨5, some 2, none, none, none⟩]
      ⟨5, some 2, none, none, none⟩ (by decide) (by decide)⟩

/-- Position of a parameter's summary card among the four outputs. -/
def paramIdx : Param → Nat
  | .pH => 0 | .TDS => 1 | .Depth => 2 | .FlowInd => 3

/-- C9: when the sequence is non-empty but the most recent reading has a
missing (NaN) value for some field, that field's card shows the
formatted-NaN string "nan", not the "--" placeholder; "--" appears only on
the empty-sequence short-circuit. -/
theorem C9_nan_card (readings : List Reading) (last : Reading) (f : Param)
    (hlast : readings.getLast? = some last) (hf : last.val f = none)
    (ps : List Param) (tr : String) (agg : Int) (cs ce : Option Int) :
    ((update_dashboard ps tr agg cs ce readings).summaries)[paramIdx f]? = some "nan" ∧
    "nan" ≠ "--" ∧
    (update_dashboard ps tr agg cs ce []).summaries = ["--", "--", "--", "--"] := by
  refine ⟨?_, by decide, rfl⟩
  rw [update_dashboard_summaries hlast]
  have hPidx : PARAMS[paramIdx f]? = some f := by cases f <;> rfl
  rw [List.getElem?_map, hPidx]
  simp [hf, formatVal]

/-- Witness for C9 at readings `[(t=0, pH=1, TDS=NaN)]`, field TDS. -/
theorem C9_nan_card_witness :
    ([⟨0, some 1, none, none, none⟩] : List Reading).getLast?
        = some ⟨0, some 1, none, none, none⟩ ∧
    (⟨0, some 1, none, none, none⟩ : Reading).val Param.TDS = none ∧
    (((update_dashboard [] "6H" 10 none none
        [⟨0, some 1, none, none, none⟩]).summaries)[paramIdx Param.TDS]? = some "nan" ∧
      "nan" ≠ "--" ∧
      (update_dashboard [] "6H" 10 none none []).summaries = ["--", "--", "--", "--"]) :=
  ⟨by decide, rfl,
    C9_nan_card [⟨0, some 1, none, none, none⟩] ⟨0, some 1, none, none, none⟩ Param.TDS
      (by decide) rfl [] "6H" 10 none none⟩

lemma deserialize_serialize (rows : List AggRow) :
    deserializeSplit (serializeSplit rows) = rows := by
  unfold deserializeSplit serializeSplit
  simp only [List.map_map]
  induction rows with
  | nil => rfl
  | cons r rs ih => simpa using ih

/-- C10: every dashboard update serializes the aggregated rows into the data
store, serialize-then-deserialize is the identity on the aggregated table,
and a subsequent export deserializes exactly the rows of the most recent
aggregation. -/
theorem C10_export_roundtrip (readings : List Reading) (hne : readings ≠ [])
    (n_clicks : Nat) (hn : n_clicks ≠ 0)
    (ps : List Param) (tr : String) (agg : Int) (cs ce : Option Int) :
    (∀ rows : List AggRow, deserializeSplit (serializeSplit rows) = rows) ∧
    (update_dashboard ps tr agg cs ce readings).stored
      = some (serializeSplit (update_dashboard ps tr agg cs ce readings).table_data) ∧
    export_data n_clicks (update_dashboard ps tr agg cs ce readings).stored
      = some ((update_dashboard ps tr agg cs ce readings).table_data) := by
  refine ⟨deserialize_serialize, update_dashboard_stored_eq hne ps tr agg cs ce, ?_⟩
  rw [update_dashboard_stored_eq hne ps tr agg cs ce]
  unfold export_data
  rw [if_neg hn]
  simp only [deserialize_serialize]

/-- Witness for C10 at readings `[(t=0, pH=1)]`, one click. -/
theorem C10_export_roundtrip_witness :
    ([⟨0, some 1, none, none, none⟩] : List Reading) ≠ [] ∧ (1 : Nat) ≠ 0 ∧
    ((∀ rows : List AggRow, deserializeSplit (serializeSplit rows) = rows) ∧
      (update_dashboard [Param.pH] "6H" 10 none none [⟨0, some 1, none, none, none⟩]).stored
        = some (serializeSplit (update_dashboard [Param.pH] "6H" 10 none none
            [⟨0, some 1, none, none, none⟩]).table_data) ∧
      export_data 1 (update_dashboard [Param.pH] "6H" 10 none none
          [⟨0, some 1, none, none, none⟩]).stored
        = some ((update_dashboard [Param.pH] "6H" 10 none none
            [⟨0, some 1, none, none, none⟩]).table_data)) :=
  ⟨by decide, by decide,
    C10_export_roundtrip [⟨0, some 1, none, none, none⟩] (by decide) 1 (by decide)
      [Param.pH] "6H" 10 none none⟩
